import Mathlib

/-!
# Shallow embedding of `src/frontend/src/App.tsx`

The application is a single-page admin UI for a table of users.  This file
embeds its data model, the zod validation schema, the form-state handlers and
the effect traces of the network / reload / logging calls.

Conventions of the embedding:
* JavaScript `number` is modelled as `Rat` where non-integers can occur
  (the `empId` form input uses `valueAsNumber`) and as `Int` where the value
  is an integer (server-assigned ids, stored employee ids).
* A JavaScript `Date` is modelled as an integer timestamp; an *invalid* date
  (`new Date(NaN)`, which `z.date()` rejects) is modelled as `none`.
* Side effects (axios calls, `window.location.reload()`, `console.log`) are
  modelled as an emitted list of `Effect`s, in program order.  The mutation
  calls in the source are fire-and-forget: the code never inspects the
  transport outcome, so each handler takes an `Outcome` argument that the
  embedded definitions are free to ignore, exactly as the source does.
-/

namespace MasterTable

/-- A user record as fetched from the backend (`type User` in App.tsx).
Its `birthDate` is a valid calendar date, modelled as a timestamp. -/
structure User where
  id : Int
  name : String
  empId : Int
  birthDate : Int
deriving DecidableEq, Repr

/-- The raw values read from the three form inputs on submission.
`empId` comes from `valueAsNumber` and may be non-integral; `birthDate`
comes from `valueAsDate` and is `none` when the `Date` is invalid. -/
structure Draft where
  name : String
  empId : Rat
  birthDate : Option Int
deriving DecidableEq, Repr

/-- `z.infer<typeof userDataSchema>`: the parsed output of the schema.
zod checks (`.min`, `.int`, `.positive`) refine but do not transform the
value, so the parsed fields equal the draft fields. -/
structure UserDataSchemaType where
  name : String
  empId : Rat
  birthDate : Int
deriving DecidableEq, Repr

/-- Field-scoped error messages, as surfaced through react-hook-form's
`formState.errors` (zodResolver keeps the first issue of each field). -/
structure FieldErrors where
  name : Option String
  empId : Option String
  birthDate : Option String
deriving DecidableEq, Repr

/-- Issues of `z.string().min(1, { message: "１文字以上で入力してください" })`. -/
def nameIssues (s : String) : List String :=
  if s.length < 1 then ["１文字以上で入力してください"] else []

/-- Issues of
`z.number().int({ message: "整数値で入力してください" }).positive({ message: "1以上で入力してください" })`:
both checks run and their issues are collected in order. -/
def empIdIssues (q : Rat) : List String :=
  (if q.den = 1 then [] else ["整数値で入力してください"]) ++
  (if 0 < q then [] else ["1以上で入力してください"])

/-- Issues of `z.date()`: an invalid date value is rejected. -/
def birthDateIssues (d : Option Int) : List String :=
  match d with
  | some _ => []
  | none => ["Invalid date"]

/-- `userDataSchema` applied to a draft through `zodResolver`: either the
parsed data, or the first issue of each field. -/
def userDataSchemaParse (d : Draft) : Except FieldErrors UserDataSchemaType :=
  match d.birthDate with
  | some bd =>
      if nameIssues d.name = [] ∧ empIdIssues d.empId = [] then
        Except.ok ⟨d.name, d.empId, bd⟩
      else
        Except.error ⟨(nameIssues d.name).head?, (empIdIssues d.empId).head?, none⟩
  | none =>
      Except.error
        ⟨(nameIssues d.name).head?, (empIdIssues d.empId).head?, (birthDateIssues none).head?⟩

/-- One observable side effect of the app, in program order. -/
inductive Effect where
  | netGet
  | netPost (body : UserDataSchemaType)
  | netPatch (id : Int) (body : UserDataSchemaType)
  | netDelete (id : Int)
  | reload
  | logError
deriving DecidableEq, Repr

/-- Whether an effect is a network (axios) call. -/
def Effect.isNetworkCall : Effect → Bool
  | .netGet => true
  | .netPost _ => true
  | .netPatch _ _ => true
  | .netDelete _ => true
  | .reload => false
  | .logError => false

/-- Transport-level outcome of a fire-and-forget axios call.  App.tsx never
awaits or inspects it for mutations, so the handlers below ignore it. -/
inductive Outcome where
  | success
  | failure
deriving DecidableEq, Repr

/-- `createUser(data)`: `axios.post("http://localhost:3000/user", data)`;
the promise is returned but never awaited, and no reload happens here. -/
def createUser (data : UserDataSchemaType) (_o : Outcome) : List Effect :=
  [Effect.netPost data]

/-- `deleteUser(id)`: `axios.delete(.../user/id)` then
`window.location.reload()`, with no branching on the outcome. -/
def deleteUser (id : Int) (_o : Outcome) : List Effect :=
  [Effect.netDelete id, Effect.reload]

/-- `updateUser(id, data)`: `axios.patch(.../user/id, data)` then
`window.location.reload()`, with no branching on the outcome. -/
def updateUser (id : Int) (data : UserDataSchemaType) (_o : Outcome) : List Effect :=
  [Effect.netPatch id data, Effect.reload]

/-- `onSubmit(data)`: `if (!selectedUser) createUser(data);
if (selectedUser) updateUser(selectedUser.id, data); window.location.reload()`.
The two `if`s are mutually exclusive on an `Option`. -/
def onSubmit (selectedUser : Option User) (data : UserDataSchemaType) (o : Outcome) :
    List Effect :=
  (match selectedUser with
   | none => createUser data o
   | some u => updateUser u.id data o) ++ [Effect.reload]

/-- react-hook-form's `handleSubmit(onSubmit)`: run the resolver on the draft;
on success call `onSubmit` with the parsed data, otherwise record the
field errors and make no call at all. -/
def handleSubmit (selectedUser : Option User) (d : Draft) (o : Outcome) :
    List Effect × Option FieldErrors :=
  match userDataSchemaParse d with
  | Except.ok data => (onSubmit selectedUser data o, none)
  | Except.error errs => ([], some errs)

/-- The client-side form state: the three controlled input values and the
selected table row (`name`, `empId`, `birthDate`, `selectedUser` useStates). -/
structure FormState where
  name : String
  empId : Rat
  birthDate : Option Int
  selectedUser : Option User
deriving DecidableEq, Repr

/-- The two modes of the record form, determined by the selection. -/
inductive Mode where
  | create
  | edit
deriving DecidableEq, Repr

/-- The form is in edit mode exactly when a row is selected (the source
branches on `selectedUser` truthiness for the submit/update/delete UI). -/
def FormState.mode (s : FormState) : Mode :=
  match s.selectedUser with
  | none => Mode.create
  | some _ => Mode.edit

/-- `clearField()`: `setName(""); setEmpId(0); setBirthDate(new Date());
setSelectedUser(null)`.  It reads nothing from the prior state; `now` is the
current (valid) date produced by `new Date()`. -/
def clearField (_s : FormState) (now : Int) : FormState :=
  { name := "", empId := 0, birthDate := some now, selectedUser := none }

/-- The `useEffect` on `[selectedUser]`: copy the selected user's fields into
the inputs, or clear everything when the selection is gone. -/
def selectedUserEffect (s : FormState) (now : Int) : FormState :=
  match s.selectedUser with
  | some u => { s with name := u.name, empId := (u.empId : Rat), birthDate := some u.birthDate }
  | none => clearField s now

/-- `setSelectedRow(user)`: `setSelectedUser(user)` plus the form `reset` to
the user's values; the `[selectedUser]` effect then runs on the new state. -/
def setSelectedRow (s : FormState) (u : User) (now : Int) : FormState :=
  selectedUserEffect { s with selectedUser := some u } now

/-- The draft the three inputs hold, as react-hook-form reads it on submit. -/
def FormState.draft (s : FormState) : Draft :=
  ⟨s.name, s.empId, s.birthDate⟩

/-- The initial-fetch `useEffect`: `getUsers().then(res => setUsers(res.data))
.catch(error => console.log(error))`.  Returns the resulting user list with
the emitted effects. -/
def getUsersEffect (prior : List User) (response : Except Unit (List User)) :
    List User × List Effect :=
  match response with
  | Except.ok res => (res, [Effect.netGet])
  | Except.error _ => (prior, [Effect.netGet, Effect.logError])

/-- A non-empty string has positive length. -/
theorem length_pos_of_ne_empty (s : String) (h : s ≠ "") : 0 < s.length := by
  cases s with
  | mk data =>
    cases data with
    | nil => exact absurd rfl h
    | cons c cs => simp [String.length]

/-- On a draft with non-empty name, integral positive employee id and valid
birth date, the schema parses successfully to the draft's own values. -/
theorem userDataSchemaParse_ok (d : Draft) (bd : Int)
    (hname : d.name ≠ "") (hint : d.empId.den = 1) (hpos : 0 < d.empId)
    (hbd : d.birthDate = some bd) :
    userDataSchemaParse d = Except.ok ⟨d.name, d.empId, bd⟩ := by
  have hn : nameIssues d.name = [] := by
    have h1 := length_pos_of_ne_empty d.name hname
    unfold nameIssues
    rw [if_neg (by omega)]
  have he : empIdIssues d.empId = [] := by
    unfold empIdIssues
    rw [if_pos hint, if_pos hpos]
    rfl
  unfold userDataSchemaParse
  rw [hbd]
  simp [hn, he]

/-- C1: for every draft with a non-empty name, a positive integral employee
id and a valid birth date, submitting the form triggers exactly one network
mutation call — a POST of the draft when no user is selected, a PATCH when
one is selected — never both and never zero. -/
theorem validSubmitOneNetworkCall (sel : Option User) (d : Draft) (o : Outcome)
    (bd : Int)
    (hname : d.name ≠ "") (hint : d.empId.den = 1) (hpos : 0 < d.empId)
    (hbd : d.birthDate = some bd) :
    (handleSubmit sel d o).1.filter (fun e => e.isNetworkCall) =
      (match sel with
       | none => [Effect.netPost ⟨d.name, d.empId, bd⟩]
       | some u => [Effect.netPatch u.id ⟨d.name, d.empId, bd⟩]) := by
  unfold handleSubmit
  rw [userDataSchemaParse_ok d bd hname hint hpos hbd]
  cases sel with
  | none => rfl
  | some u => rfl

theorem validSubmitOneNetworkCallWitness :
    (handleSubmit none ⟨"山田 太郎", 11111, some 631152000⟩ Outcome.success).1.filter
        (fun e => e.isNetworkCall) =
      [Effect.netPost ⟨"山田 太郎", 11111, 631152000⟩] :=
  validSubmitOneNetworkCall none ⟨"山田 太郎", 11111, some 631152000⟩ Outcome.success
    631152000 (by decide) (by decide) (by decide) rfl

/-- C2: submitting with a selected user issues exactly one update request,
a PATCH addressed to the selected record's `id`, whose body carries the
draft's field values — in particular every changed field of the draft. -/
theorem editSubmitPatchesSelectedId (u : User) (d : Draft) (o : Outcome)
    (bd : Int)
    (hname : d.name ≠ "") (hint : d.empId.den = 1) (hpos : 0 < d.empId)
    (hbd : d.birthDate = some bd) :
    (handleSubmit (some u) d o).1.filter (fun e => e.isNetworkCall) =
      [Effect.netPatch u.id ⟨d.name, d.empId, bd⟩] := by
  unfold handleSubmit
  rw [userDataSchemaParse_ok d bd hname hint hpos hbd]
  rfl

theorem editSubmitPatchesSelectedIdWitness :
    (handleSubmit (some ⟨5, "山田 太郎", 11111, 631152000⟩)
        ⟨"鈴木", 11111, some 631152000⟩ Outcome.success).1.filter
        (fun e => e.isNetworkCall) =
      [Effect.netPatch 5 ⟨"鈴木", 11111, 631152000⟩] :=
  editSubmitPatchesSelectedId ⟨5, "山田 太郎", 11111, 631152000⟩
    ⟨"鈴木", 11111, some 631152000⟩ Outcome.success 631152000
    (by decide) (by decide) (by decide) rfl

/-- C3: a draft with an empty name is rejected: no network call is made and
the name field carries the minimum-length message. -/
theorem emptyNameRejected (d : Draft) (sel : Option User) (o : Outcome)
    (hname : d.name = "") :
    (handleSubmit sel d o).1 = [] ∧
    ∃ errs, (handleSubmit sel d o).2 = some errs ∧
      errs.name = some "１文字以上で入力してください" := by
  have hn : nameIssues d.name = ["１文字以上で入力してください"] := by
    rw [hname]; rfl
  unfold handleSubmit userDataSchemaParse
  cases hb : d.birthDate with
  | none => simp [hn]
  | some bd => simp [hn]

theorem emptyNameRejectedWitness :
    (handleSubmit none ⟨"", 7, some 0⟩ Outcome.success).1 = [] ∧
    ∃ errs, (handleSubmit none ⟨"", 7, some 0⟩ Outcome.success).2 = some errs ∧
      errs.name = some "１文字以上で入力してください" :=
  emptyNameRejected ⟨"", 7, some 0⟩ none Outcome.success rfl

/-- C4: a draft whose employee id is not a positive integer (non-integral,
zero or negative) is rejected: no network call is made and the employee id
field carries an error message. -/
theorem badEmpIdRejected (d : Draft) (sel : Option User) (o : Outcome)
    (h : d.empId.den ≠ 1 ∨ d.empId ≤ 0) :
    (handleSubmit sel d o).1 = [] ∧
    ∃ errs, (handleSubmit sel d o).2 = some errs ∧ errs.empId.isSome = true := by
  have hne : empIdIssues d.empId ≠ [] := by
    unfold empIdIssues
    rcases h with h | h
    · rw [if_neg h]; simp
    · rw [if_neg (not_lt.mpr h)]; simp
  obtain ⟨m, t, hm⟩ : ∃ m t, empIdIssues d.empId = m :: t := by
    cases hE : empIdIssues d.empId with
    | nil => exact absurd hE hne
    | cons m t => exact ⟨m, t, rfl⟩
  unfold handleSubmit userDataSchemaParse
  cases hb : d.birthDate with
  | none => simp [hm]
  | some bd => simp [hm]

theorem badEmpIdRejectedWitness :
    (handleSubmit none ⟨"abc", -3, some 0⟩ Outcome.success).1 = [] ∧
    ∃ errs, (handleSubmit none ⟨"abc", -3, some 0⟩ Outcome.success).2 = some errs ∧
      errs.empId.isSome = true :=
  badEmpIdRejected ⟨"abc", -3, some 0⟩ none Outcome.success (Or.inr (by decide))

/-- C5: selecting a table row populates the form inputs with exactly that
record's name, employee id and birth date, makes it the selected user (the
submission target), and switches the form to edit mode. -/
theorem selectRowPopulatesForm (s : FormState) (u : User) (now : Int) :
    (setSelectedRow s u now).name = u.name ∧
    (setSelectedRow s u now).empId = (u.empId : Rat) ∧
    (setSelectedRow s u now).birthDate = some u.birthDate ∧
    (setSelectedRow s u now).selectedUser = some u ∧
    (setSelectedRow s u now).mode = Mode.edit := by
  simp [setSelectedRow, selectedUserEffect, FormState.mode]

/-- C6: clearing the form from any prior state empties the name, zeroes the
employee id, resets the birth date to the current date, clears the selected
user, and returns the form to create mode. -/
theorem clearFieldResets (s : FormState) (now : Int) :
    (clearField s now).name = "" ∧
    (clearField s now).empId = 0 ∧
    (clearField s now).birthDate = some now ∧
    (clearField s now).selectedUser = none ∧
    (clearField s now).mode = Mode.create := by
  simp [clearField, FormState.mode]

/-- C7: when the initial list fetch fails at the transport level, the failure
is logged, the in-memory user list keeps its prior value, and no second GET
(no retry) is issued. -/
theorem listFetchFailureLoggedOnly (prior : List User) :
    (getUsersEffect prior (Except.error ())).1 = prior ∧
    (getUsersEffect prior (Except.error ())).2 = [Effect.netGet, Effect.logError] ∧
    ((getUsersEffect prior (Except.error ())).2.filter
        (fun e => e.isNetworkCall)).length = 1 := by
  exact ⟨rfl, rfl, rfl⟩

/-- C8: every mutating operation — delete, update submission, create
submission — emits a reload right after its network call, and the emitted
trace is the same fixed list for every transport outcome `o`, i.e. the
reload is unconditional. -/
theorem mutationsReloadUnconditionally (id : Int) (d : UserDataSchemaType)
    (u : User) (o : Outcome) :
    deleteUser id o = [Effect.netDelete id, Effect.reload] ∧
    updateUser id d o = [Effect.netPatch id d, Effect.reload] ∧
    onSubmit none d o = [Effect.netPost d, Effect.reload] ∧
    onSubmit (some u) d o = [Effect.netPatch u.id d, Effect.reload, Effect.reload] := by
  exact ⟨rfl, rfl, rfl, rfl⟩

/-- C9: an edit-mode submission emits the reload effect exactly twice (once
inside `updateUser`, once at the end of `onSubmit`), while a create
submission and a delete each emit it exactly once. -/
theorem editSubmitReloadsTwice (u : User) (d : UserDataSchemaType) (id : Int)
    (o : Outcome) :
    (onSubmit (some u) d o).countP (fun e => decide (e = Effect.reload)) = 2 ∧
    (onSubmit none d o).countP (fun e => decide (e = Effect.reload)) = 1 ∧
    (deleteUser id o).countP (fun e => decide (e = Effect.reload)) = 1 := by
  exact ⟨rfl, rfl, rfl⟩

/-- C10: the cleared form state has employee id 0, and every draft whose
employee id is 0 — whatever its name and birth date — is rejected with the
positivity message on the employee id field and makes no network call. -/
theorem clearedFormAlwaysRejected (s : FormState) (now : Int)
    (sel : Option User) (d : Draft) (o : Outcome) (h : d.empId = 0) :
    (clearField s now).empId = 0 ∧
    (handleSubmit sel d o).1 = [] ∧
    ∃ errs, (handleSubmit sel d o).2 = some errs ∧
      errs.empId = some "1以上で入力してください" := by
  refine ⟨rfl, ?_⟩
  have hE : empIdIssues d.empId = ["1以上で入力してください"] := by
    rw [h]; decide
  unfold handleSubmit userDataSchemaParse
  cases hb : d.birthDate with
  | none => simp [hE]
  | some bd => simp [hE]

theorem clearedFormAlwaysRejectedWitness :
    (clearField ⟨"x", 5, some 9, none⟩ 17).empId = 0 ∧
    (handleSubmit none ⟨"佐藤", 0, some 0⟩ Outcome.success).1 = [] ∧
    ∃ errs, (handleSubmit none ⟨"佐藤", 0, some 0⟩ Outcome.success).2 = some errs ∧
      errs.empId = some "1以上で入力してください" :=
  clearedFormAlwaysRejected ⟨"x", 5, some 9, none⟩ 17 none ⟨"佐藤", 0, some 0⟩
    Outcome.success rfl

end MasterTable
